import Mathlib

/-!
Shallow embedding of src/pubmed_images_caption.py.

The script runs three stages: an identifier search (fetch_pmc_ids), a
batched metadata fetch (fetch_article_details) and a per-article image
resolution (fetch_cdn_links), then writes the joined records to a file
(main).  Network requests are modelled by an oracle (World) giving each
request's outcome.  A Python value that may be None (ElementTree's
Element.text, dict.get) is modelled as an Option String with none for
None.  An exception that the script does not catch (xml.etree's
ParseError raised by ET.fromstring on a body that is not well-formed
XML) is modelled with Except: Except.error means the process dies with
an uncaught exception, Except.ok means it runs to completion.
-/

namespace PubMedIC

/-- Python substring helpers.  startsWithChars hay needle decides whether
needle is a prefix of hay, character by character. -/
def startsWithChars : List Char → List Char → Bool
  | _, [] => true
  | [], _ :: _ => false
  | c :: cs, d :: ds => c == d && startsWithChars cs ds

/-- listContains hay needle decides Python needle in hay on char lists:
needle occurs as a contiguous substring of hay. -/
def listContains : List Char → List Char → Bool
  | [], needle => startsWithChars [] needle
  | c :: rest, needle => startsWithChars (c :: rest) needle || listContains rest needle

/-- Python needle in hay for strings. -/
def strContains (hay needle : String) : Bool :=
  listContains hay.data needle.data

/-- Python hay.startswith(needle). -/
def strStartsWith (s t : String) : Bool :=
  startsWithChars s.data t.data

/-- An img tag as seen by BeautifulSoup: img_tag.get of src is None or a
string (source line 38). -/
structure ImgTag where
  src : Option String
deriving DecidableEq

/-- Source lines 40-41: a protocol-relative src gets the https scheme
prepended before being appended to cdn_links. -/
def normalizeSrc (src : String) : String :=
  if strStartsWith src "//" then "https:" ++ src else src

/-- Source lines 37-43: the body of the img-tag loop of fetch_cdn_links.
A tag contributes its (normalized) src exactly when the src is present
and mentions the cdn host. -/
def cdnLinksFrom : List ImgTag → List String
  | [] => []
  | tag :: rest =>
    match tag.src with
    | none => cdnLinksFrom rest
    | some src =>
      if strContains src "cdn.ncbi.nlm.nih.gov" then
        normalizeSrc src :: cdnLinksFrom rest
      else
        cdnLinksFrom rest

/-- Source lines 13-43, fetch_cdn_links: the page oracle answer is none
when requests.get raises (caught at lines 30-32, returning []); otherwise
the parsed img tags are scanned.  BeautifulSoup's lenient html.parser
raises on no input, so a delivered page always parses. -/
def fetch_cdn_links : Option (List ImgTag) → List String
  | none => []
  | some imgs => cdnLinksFrom imgs

/-- An ElementTree element as far as the script reads it: Element.text,
which is None when the element has no text before its first child. -/
structure TextElem where
  text : Option String
deriving DecidableEq

/-- A graphic element: the script only reads its attrib dict
(source line 118). -/
structure Graphic where
  attrib : List (String × String)
deriving DecidableEq

/-- A fig element as read by the script: fig.find of caption/p and
fig.find of graphic (source lines 112 and 115), none when find returns
None. -/
structure Fig where
  captionP : Option TextElem
  graphic : Option Graphic
deriving DecidableEq

/-- An article element as read by the script: find of the pmc article-id,
of article-title, of abstract (none when find returns None), and the
figs in document order (source lines 98-111). -/
structure Article where
  articleId : Option TextElem
  articleTitle : Option TextElem
  abstractElem : Option TextElem
  figs : List Fig
deriving DecidableEq

/-- The xlink href attribute key used at source line 118. -/
def xlinkHref : String := "\x7bhttp://www.w3.org/1999/xlink\x7dhref"

/-- Python graphic.attrib.get for the attribute dict. -/
def attribGet (g : Graphic) (k : String) : Option String :=
  g.attrib.lookup k

/-- One record of the output list (source lines 126-132).  pmcid, title,
abstract and each captions entry are Option String because Element.text
can be None, which json.dump serializes as null. -/
structure ArticleRecord where
  pmcid : Option String
  title : Option String
  abstractText : Option String
  captions : List (Option String)
  images : List String
deriving DecidableEq

/-- Outcome of one requests.get against an eutils endpoint:
transportErr when requests raises (caught by the script), malformed when
the request succeeds but the body is not well-formed XML (ET.fromstring
then raises, uncaught), body when the parsed document is delivered. -/
inductive FetchResult (α : Type) where
  | transportErr
  | malformed
  | body (doc : α)
deriving DecidableEq

/-- The network as an oracle: the single esearch response (the Id texts
of the parsed document, each an Element.text and so None for an empty
Id element), the efetch response for each batch of joined id strings
(the article elements of the parsed document), and the rendered page for
each pmcid value interpolated into the page URL. -/
structure World where
  search : FetchResult (List (Option String))
  efetch : List String → FetchResult (List Article)
  page : Option String → Option (List ImgTag)

/-- The exceptions the script can die of: ParseError from ET.fromstring
at source lines 65 and 94, which sit outside the try blocks, and
TypeError from the comma join at source line 84 when an Id element's
text is None. -/
inductive PyExn where
  | parseError
  | typeError
deriving DecidableEq

/-- Source lines 46-67, fetch_pmc_ids: a transport error is caught and
yields [], a malformed body raises at line 65, otherwise the Id texts
(each possibly None) are returned in document order. -/
def fetch_pmc_ids (w : World) : Except PyExn (List (Option String)) :=
  match w.search with
  | .transportErr => .ok []
  | .malformed => .error .parseError
  | .body ids => .ok ids

/-- Source lines 82-83: the loop for batch_start in range(0, len, step)
with batch = pmcids sliced batch_start to batch_start + step.  A step of
0 would make Python's range raise ValueError; the script only ever uses
batch_size 5. -/
def chunkList : List α → Nat → List (List α)
  | [], _ => []
  | _ :: _, 0 => []
  | x :: xs, b + 1 => (x :: xs).take (b + 1) :: chunkList (xs.drop b) (b + 1)
termination_by l _ => l.length
decreasing_by simp [List.length_drop]; omega

/-- Source lines 112-113: the captions entry for one fig: the caption/p
element's text when the element exists (possibly None), else the
sentinel. -/
def figCaption (fig : Fig) : Option String :=
  match fig.captionP with
  | some e => e.text
  | none => some "No caption"

/-- Source line 120: the first cdn link containing image_href as a
substring, else the sentinel. -/
def matchUrl (cdn_links : List String) (image_href : String) : String :=
  match cdn_links.find? (fun url => strContains url image_href) with
  | some u => u
  | none => "No Match Found"

/-- Source lines 115-121: the images entry for one fig.  image_url stays
No image URL unless the fig has a graphic element whose xlink href is
present and truthy (non-empty); only then is the substring match against
cdn_links performed. -/
def figImage (cdn_links : List String) (fig : Fig) : String :=
  match fig.graphic with
  | none => "No image URL"
  | some g =>
    match attribGet g xlinkHref with
    | none => "No image URL"
    | some href => if href = "" then "No image URL" else matchUrl cdn_links href

/-- Source line 98-99: pmcid for the record: the id element's text when
present (possibly None), else the sentinel No PMCID. -/
def articlePmcid (a : Article) : Option String :=
  match a.articleId with
  | some e => e.text
  | none => some "No PMCID"

/-- Source lines 97-132: processing of one article element of a batch
response: resolve the cdn links once via the article's own pmcid, then
walk the figs in document order, appending one captions entry and one
images entry per fig. -/
def fetch_article (page : Option String → Option (List ImgTag)) (a : Article) :
    ArticleRecord :=
  let pmcid := articlePmcid a
  let cdn_links := fetch_cdn_links (page pmcid)
  { pmcid := pmcid
    title := match a.articleTitle with | some e => e.text | none => some "No title"
    abstractText := match a.abstractElem with | some e => e.text | none => some "No abstract"
    captions := a.figs.map figCaption
    images := a.figs.map (figImage cdn_links) }

/-- The records one batch of joined id strings contributes: nothing on
a transport error (the batch is skipped at lines 90-92), its processed
articles on a delivered body.  (A malformed body kills the run instead,
see fetchBatchesGo.) -/
def batchRecords (w : World) (batch : List String) : List ArticleRecord :=
  match w.efetch batch with
  | .body articles => articles.map (fetch_article w.page)
  | _ => []

/-- Source line 84, the comma join over one batch of Id texts: it raises
TypeError, uncaught, as soon as a batch member is None (an empty Id
element); otherwise the batch's strings address the efetch request. -/
def joinBatch : List (Option String) → Except PyExn (List String)
  | [] => .ok []
  | none :: _ => .error .typeError
  | some s :: rest =>
    match joinBatch rest with
    | .error e => .error e
    | .ok ids => .ok (s :: ids)

/-- Source lines 82-132: the batch loop.  The comma join of line 84 runs
first and raises uncaught on a None id; then transportErr is caught at
lines 90-92 (continue), a malformed body raises uncaught at line 94, and
a delivered body's articles are appended in order. -/
def fetchBatchesGo (w : World) :
    List (List (Option String)) → Except PyExn (List ArticleRecord)
  | [] => .ok []
  | batch :: rest =>
    match joinBatch batch with
    | .error e => .error e
    | .ok ids =>
      match w.efetch ids with
      | .transportErr => fetchBatchesGo w rest
      | .malformed => .error .parseError
      | .body articles =>
        match fetchBatchesGo w rest with
        | .error e => .error e
        | .ok recs => .ok (articles.map (fetch_article w.page) ++ recs)

/-- Source lines 70-134, fetch_article_details: the id list (whose
members are Element.text values, so possibly None) is cut into batches
of batch_size and the batch loop is run. -/
def fetch_article_details (w : World) (pmcids : List (Option String))
    (batch_size : Nat) : Except PyExn (List ArticleRecord) :=
  fetchBatchesGo w (chunkList pmcids batch_size)

/-- What a completed run leaves behind: the id list, the records, and
whether the output file was written. -/
structure RunOutcome where
  pmcids : List (Option String)
  details : List ArticleRecord
  wroteFile : Bool
deriving DecidableEq

/-- Source lines 137-159, main: fetch the ids; only when the list is
non-empty fetch the details (batch_size 5) and write the file. -/
def main (w : World) : Except PyExn RunOutcome :=
  match fetch_pmc_ids w with
  | .error e => .error e
  | .ok pmcids =>
    if pmcids.isEmpty then .ok ⟨pmcids, [], false⟩
    else
      match fetch_article_details w pmcids 5 with
      | .error e => .error e
      | .ok details => .ok ⟨pmcids, details, true⟩

/-- Completion without an uncaught exception. -/
def exceptOk : Except PyExn RunOutcome → Bool
  | .ok _ => true
  | .error _ => false

/-! Lemmas about the batching loop. -/

/-- Concatenating the batches gives back the original id list. -/
theorem chunkList_flatten : ∀ (l : List α) (b : Nat), 1 ≤ b →
    (chunkList l b).flatten = l
  | [], _, _ => by simp [chunkList]
  | _ :: _, 0, hb => by omega
  | x :: xs, b + 1, hb => by
    simp only [chunkList, List.flatten_cons]
    rw [chunkList_flatten (xs.drop b) (b + 1) hb]
    have hdrop : xs.drop b = (x :: xs).drop (b + 1) := rfl
    rw [hdrop, List.take_append_drop]
termination_by l _ _ => l.length
decreasing_by simp [List.length_drop]; omega

/-- The number of batches is the ceiling of length over batch size. -/
theorem chunkList_length : ∀ (l : List α) (b : Nat), 1 ≤ b →
    (chunkList l b).length = (l.length + b - 1) / b
  | [], b, hb => by
    simp only [chunkList, List.length_nil]
    rw [Nat.div_eq_of_lt (by omega)]
  | _ :: _, 0, hb => by omega
  | x :: xs, b + 1, hb => by
    simp only [chunkList, List.length_cons]
    rw [chunkList_length (xs.drop b) (b + 1) hb]
    simp only [List.length_drop]
    rcases Nat.le_total b xs.length with h | h
    · have h1 : xs.length - b + (b + 1) - 1 = xs.length := by omega
      have h2 : xs.length + 1 + (b + 1) - 1 = xs.length + (b + 1) := by omega
      rw [h1, h2, Nat.add_div_right _ (by omega)]
    · have h1 : xs.length - b + (b + 1) - 1 = b := by omega
      have h2 : xs.length + 1 + (b + 1) - 1 = xs.length + b + 1 := by omega
      have h3 : (xs.length + b + 1) / (b + 1) = 1 :=
        Nat.div_eq_of_lt_le (by omega) (by omega)
      have h4 : b / (b + 1) = 0 := Nat.div_eq_of_lt (by omega)
      rw [h1, h2, h3, h4]
termination_by l _ _ => l.length
decreasing_by simp [List.length_drop]; omega

/-- Batch i is the contiguous slice of the original list starting at
offset i times the batch size (getD form, for non-dependent rewriting). -/
theorem chunkList_getD : ∀ (l : List α) (b : Nat), 1 ≤ b →
    ∀ (i : Nat), i < (chunkList l b).length →
      (chunkList l b).getD i [] = (l.drop (i * b)).take b
  | [], b, _, i, hi => by simp [chunkList] at hi
  | _ :: _, 0, hb, _, _ => by omega
  | x :: xs, b + 1, hb, i, hi => by
    cases i with
    | zero =>
      simp only [chunkList, List.getD_cons_zero, Nat.zero_mul, List.drop_zero]
    | succ j =>
      have hi' : j < (chunkList (xs.drop b) (b + 1)).length := by
        simpa only [chunkList, List.length_cons, Nat.succ_lt_succ_iff] using hi
      have hrec := chunkList_getD (xs.drop b) (b + 1) hb j hi'
      simp only [chunkList, List.getD_cons_succ]
      rw [hrec, List.drop_drop]
      have hm : (j + 1) * (b + 1) = b + j * (b + 1) + 1 := by ring
      rw [hm, List.drop_succ_cons]
termination_by l _ _ _ _ => l.length
decreasing_by simp [List.length_drop]; omega

/-- In-bounds getD agrees with get. -/
theorem getD_of_lt (l : List α) (i : Nat) (d : α) (h : i < l.length) :
    l.getD i d = l.get ⟨i, h⟩ := by
  rw [List.getD_eq_getElem?_getD, List.getElem?_eq_getElem h]
  rfl

/-- Batch i is the contiguous slice of the original list starting at
offset i times the batch size. -/
theorem chunkList_getElem (l : List α) (b : Nat) (hb : 1 ≤ b)
    (i : Nat) (hi : i < (chunkList l b).length) :
    (chunkList l b).get ⟨i, hi⟩ = (l.drop (i * b)).take b := by
  rw [← getD_of_lt _ _ [] hi]
  exact chunkList_getD l b hb i hi

/-- Batching commutes with mapping a function over the ids. -/
theorem chunkList_map (f : α → β) : ∀ (l : List α) (b : Nat),
    chunkList (l.map f) b = (chunkList l b).map (List.map f)
  | [], _ => by simp [chunkList]
  | _ :: _, 0 => by simp [chunkList]
  | x :: xs, b + 1 => by
    simp only [List.map_cons, chunkList]
    congr 1
    · simp
    · rw [← List.map_drop]
      exact chunkList_map f (xs.drop b) (b + 1)
termination_by l _ => l.length
decreasing_by simp [List.length_drop]; omega

/-- C3: for a non-empty identifier list of length N and batch size B at
least 1, the batch-metadata stage cuts the list into ceil(N/B) batches
(for B at least 1 the ceiling of N/B is (N+B-1)/B), batch i being the
contiguous slice of length at most B starting at offset i*B, and the
concatenation of the batches in order is the original list, so the
batches disjointly and exhaustively cover it in original order. -/
theorem c3_batching (ids : List String) (b : Nat) (hne : ids ≠ []) (hb : 1 ≤ b) :
    (chunkList ids b).length = (ids.length + b - 1) / b ∧
    (chunkList ids b).flatten = ids ∧
    ∀ i, (hi : i < (chunkList ids b).length) →
      (chunkList ids b).get ⟨i, hi⟩ = (ids.drop (i * b)).take b :=
  ⟨chunkList_length ids b hb, chunkList_flatten ids b hb,
    fun i hi => chunkList_getElem ids b hb i hi⟩

/-- Witness for C3 at a concrete list and batch size. -/
theorem c3_batching_witness :
    (chunkList ["a", "b", "c"] 2).flatten = ["a", "b", "c"] :=
  (c3_batching ["a", "b", "c"] 2 (by decide) (by decide)).2.1

/-! Lemmas about the substring join. -/

/-- find? returns the element at the first index whose predicate holds. -/
theorem find?_eq_get_of_min (p : α → Bool) : ∀ (l : List α) (i : Nat)
    (hi : i < l.length), p (l.get ⟨i, hi⟩) = true →
    (∀ j, (hj : j < i) → p (l.get ⟨j, Nat.lt_trans hj hi⟩) = false) →
    l.find? p = some (l.get ⟨i, hi⟩)
  | [], i, hi, _, _ => absurd hi (by simp)
  | x :: xs, 0, hi, hp, _ => by
    have hx : p x = true := by simpa using hp
    simpa using List.find?_cons_of_pos xs hx
  | x :: xs, j + 1, hi, hp, hmin => by
    have hx : p x = false := by simpa using hmin 0 (Nat.succ_pos j)
    rw [List.find?_cons_of_neg _ (by simp [hx])]
    have hi' : j < xs.length := Nat.lt_of_succ_lt_succ hi
    have hp' : p (xs.get ⟨j, hi'⟩) = true := by simpa using hp
    have hmin' : ∀ k, (hk : k < j) → p (xs.get ⟨k, Nat.lt_trans hk hi'⟩) = false := by
      intro k hk
      simpa using hmin (k + 1) (Nat.succ_lt_succ hk)
    simpa using find?_eq_get_of_min p xs j hi' hp' hmin'

/-- C1: for a figure with a graphic whose href is present and non-empty,
the images entry is the first entry of the article's cdn link list that
contains the href as a substring; when the list is empty, or no entry of
a non-empty list contains it, the entry is exactly the sentinel
No Match Found. -/
theorem c1_first_match (links : List String) (fig : Fig) (g : Graphic)
    (href : String) (hg : fig.graphic = some g)
    (hh : attribGet g xlinkHref = some href) (hne : href ≠ "") :
    (links = [] → figImage links fig = "No Match Found") ∧
    ((∀ u ∈ links, strContains u href = false) →
      figImage links fig = "No Match Found") ∧
    (∀ i, (hi : i < links.length) →
      strContains (links.get ⟨i, hi⟩) href = true →
      (∀ j, (hj : j < i) → strContains (links.get ⟨j, Nat.lt_trans hj hi⟩) href = false) →
      figImage links fig = links.get ⟨i, hi⟩) := by
  have hfig : figImage links fig = matchUrl links href := by
    simp [figImage, hg, hh, hne]
  refine ⟨?_, ?_, ?_⟩
  · intro h
    subst h
    simp [hfig, matchUrl, List.find?]
  · intro h
    have hnone : links.find? (fun url => strContains url href) = none :=
      List.find?_eq_none.mpr (by intro x hx; simp [h x hx])
    simp [hfig, matchUrl, hnone]
  · intro i hi hp hmin
    have := find?_eq_get_of_min (fun url => strContains url href) links i hi hp hmin
    simp [hfig, matchUrl, this]

/-- Witness for C1: a figure whose graphic href finds no entry in an
empty cdn link list resolves to the sentinel. -/
theorem c1_first_match_witness :
    figImage [] ⟨none, some ⟨[(xlinkHref, "p1.jpg")]⟩⟩ = "No Match Found" :=
  (c1_first_match [] ⟨none, some ⟨[(xlinkHref, "p1.jpg")]⟩⟩
    ⟨[(xlinkHref, "p1.jpg")]⟩ "p1.jpg" rfl (by decide) (by decide)).1 rfl

/-- C10: a figure whose graphic element is present but whose xlink href
attribute is absent or empty gets the sentinel No image URL, for every
cdn link list (so no substring match is consulted), and this is the same
sentinel a figure with no graphic element gets. -/
theorem c10_no_href (links : List String) (fig : Fig) (g : Graphic)
    (hg : fig.graphic = some g)
    (hh : attribGet g xlinkHref = none ∨ attribGet g xlinkHref = some "") :
    figImage links fig = "No image URL" ∧
    ∀ fig2 : Fig, fig2.graphic = none → figImage links fig2 = "No image URL" := by
  constructor
  · rcases hh with h | h <;> simp [figImage, hg, h]
  · intro fig2 h2
    simp [figImage, h2]

/-- Witness for C10: a graphic with no attributes at all. -/
theorem c10_no_href_witness :
    figImage ["https://cdn.ncbi.nlm.nih.gov/p1.jpg"] ⟨none, some ⟨[]⟩⟩
      = "No image URL" :=
  (c10_no_href ["https://cdn.ncbi.nlm.nih.gov/p1.jpg"] ⟨none, some ⟨[]⟩⟩ ⟨[]⟩
    rfl (Or.inl rfl)).1

/-- C4 counterexample: an article element with no pmc article-id element
gets the sentinel No PMCID as its identifier, not the sentinel unknown
the claim names. -/
theorem c4_counterexample :
    (fetch_article (fun _ => none) ⟨none, none, none, []⟩).pmcid
        = some "No PMCID" ∧
    (some "No PMCID" : Option String) ≠ some "unknown" :=
  ⟨rfl, by decide⟩

/-- C4 amended: when the canonical identifier element is absent from the
metadata document, the record's identifier field is the sentinel string
No PMCID. -/
theorem c4_amended (page : Option String → Option (List ImgTag)) (a : Article)
    (h : a.articleId = none) : (fetch_article page a).pmcid = some "No PMCID" := by
  simp [fetch_article, articlePmcid, h]

/-- Witness for the amended C4. -/
theorem c4_amended_witness :
    (fetch_article (fun _ => some []) ⟨none, none, none, []⟩).pmcid
      = some "No PMCID" :=
  c4_amended (fun _ => some []) ⟨none, none, none, []⟩ rfl

/-- C9 counterexample: a figure whose caption/p element exists but holds
no text (its Element.text is None, e.g. the p starts with a child
element) yields a captions entry that is Python None, serialized as
null, which is neither caption text nor the sentinel No caption. -/
theorem c9_counterexample :
    (fetch_article (fun _ => none)
        ⟨none, none, none, [⟨some ⟨none⟩, none⟩]⟩).captions = [none] ∧
    (none : Option String) ≠ some "No caption" :=
  ⟨rfl, by decide⟩

/-- C9 amended: the captions entry is the caption/p element's text value
when the element exists (a string, or Python None when the element holds
no text), and the sentinel No caption when the element is missing. -/
theorem c9_amended (fig : Fig) :
    (fig.captionP = none → figCaption fig = some "No caption") ∧
    ∀ e : TextElem, fig.captionP = some e → figCaption fig = e.text := by
  constructor
  · intro h
    simp [figCaption, h]
  · intro e h
    simp [figCaption, h]

/-- Witness for the amended C9: the sentinel case and the text case. -/
theorem c9_amended_witness :
    figCaption ⟨none, none⟩ = some "No caption" ∧
    figCaption ⟨some ⟨some "A caption"⟩, none⟩ = some "A caption" :=
  ⟨(c9_amended ⟨none, none⟩).1 rfl,
    (c9_amended ⟨some ⟨some "A caption"⟩, none⟩).2 ⟨some "A caption"⟩ rfl⟩

/-! Lemmas about the batch loop's output. -/

/-- The comma join succeeds on a batch of present id strings and
delivers exactly those strings. -/
theorem joinBatch_map_some : ∀ l : List String, joinBatch (l.map some) = .ok l
  | [] => rfl
  | s :: rest => by simp [joinBatch, joinBatch_map_some rest]

/-- A list of optional values without a none is a list of plain values
mapped through some. -/
theorem eq_map_some_of_not_none {α : Type} : ∀ l : List (Option α),
    none ∉ l → ∃ strs : List α, l = strs.map some
  | [], _ => ⟨[], rfl⟩
  | none :: _, h => absurd (by simp) h
  | some s :: rest, h => by
    obtain ⟨strs, hs⟩ := eq_map_some_of_not_none rest (by simp at h; exact h)
    exact ⟨s :: strs, by simp [hs]⟩

/-- Every record of a completed batch loop is the processing of some
article element by fetch_article. -/
theorem mem_fetchBatchesGo (w : World) :
    ∀ (batches : List (List (Option String))) (recs : List ArticleRecord),
      fetchBatchesGo w batches = .ok recs →
      ∀ r ∈ recs, ∃ art : Article, r = fetch_article w.page art := by
  intro batches
  induction batches with
  | nil =>
    intro recs h r hr
    simp only [fetchBatchesGo, Except.ok.injEq] at h
    subst h
    simp at hr
  | cons batch rest ih =>
    intro recs h r hr
    cases hj : joinBatch batch with
    | error e =>
      simp only [fetchBatchesGo, hj] at h
      exact absurd h (by simp)
    | ok ids =>
      cases hw : w.efetch ids with
      | transportErr =>
        simp only [fetchBatchesGo, hj, hw] at h
        exact ih recs h r hr
      | malformed =>
        simp only [fetchBatchesGo, hj, hw] at h
        exact absurd h (by simp)
      | body articles =>
        simp only [fetchBatchesGo, hj, hw] at h
        cases hrest : fetchBatchesGo w rest with
        | error e =>
          rw [hrest] at h
          exact absurd h (by simp)
        | ok recs2 =>
          rw [hrest] at h
          simp only [Except.ok.injEq] at h
          subst h
          rcases List.mem_append.mp hr with hL | hR
          · rcases List.mem_map.mp hL with ⟨art, _, hart⟩
            exact ⟨art, hart.symm⟩
          · exact ih recs2 hrest r hR

/-- When every id is present and no batch response is malformed, the
batch loop completes and returns, in batch order, exactly the records
each batch contributes on its own. -/
theorem fetchBatchesGo_ok (w : World) :
    ∀ batches : List (List String),
      (∀ batch ∈ batches, w.efetch batch ≠ .malformed) →
      fetchBatchesGo w (batches.map (List.map some))
        = .ok ((batches.map (batchRecords w)).flatten) := by
  intro batches
  induction batches with
  | nil => intro _; simp [fetchBatchesGo]
  | cons batch rest ih =>
    intro h
    have hb : w.efetch batch ≠ .malformed := h batch (by simp)
    have hrest := ih (fun x hx => h x (by simp [hx]))
    cases hw : w.efetch batch with
    | transportErr =>
      simp [fetchBatchesGo, joinBatch_map_some, hw, hrest, batchRecords]
    | malformed => exact absurd hw hb
    | body articles =>
      simp [fetchBatchesGo, joinBatch_map_some, hw, hrest, batchRecords]

/-- C2: every record the batch-metadata stage produces has captions and
images of equal length, and both sequences are maps over the same figure
list in document order, so position i of either refers to the same
figure element. -/
theorem c2_aligned (w : World) (ids : List (Option String)) (b : Nat)
    (recs : List ArticleRecord)
    (h : fetch_article_details w ids b = .ok recs) :
    ∀ r ∈ recs, r.captions.length = r.images.length ∧
      ∃ art : Article, r = fetch_article w.page art ∧
        r.captions = art.figs.map figCaption ∧
        r.images = art.figs.map
          (figImage (fetch_cdn_links (w.page (articlePmcid art)))) := by
  intro r hr
  obtain ⟨art, hart⟩ := mem_fetchBatchesGo w (chunkList ids b) recs h r hr
  subst hart
  refine ⟨by simp [fetch_article], art, rfl, by simp [fetch_article],
    by simp [fetch_article]⟩

/-- Concrete article for the C2 witness. -/
def artC2 : Article := ⟨some ⟨some "7"⟩, none, none, [⟨none, none⟩]⟩

/-- Concrete world for the C2 witness. -/
def wC2 : World := ⟨.body [some "7"], fun _ => .body [artC2], fun _ => some []⟩

/-- Witness for C2 at a one-article, one-figure world. -/
theorem c2_aligned_witness :
    (fetch_article (fun _ => some []) artC2).captions.length
      = (fetch_article (fun _ => some []) artC2).images.length :=
  (c2_aligned wC2 [some "7"] 5 [fetch_article (fun _ => some []) artC2]
    (by simp [fetch_article_details, fetchBatchesGo, chunkList, joinBatch, wC2])
    (fetch_article (fun _ => some []) artC2) (by simp)).1

/-- C5 counterexample world: the search request itself succeeds at the
transport level but delivers a body that is not well-formed XML. -/
def wMalformedSearch : World := ⟨.malformed, fun _ => .transportErr, fun _ => none⟩

/-- C5 counterexample world: a well-formed search body whose single Id
element is empty, so its Element.text is None. -/
def wNoneId : World := ⟨.body [none], fun _ => .body [], fun _ => none⟩

/-- C5 counterexample: with a malformed search response body, the run
dies of an uncaught ParseError raised by ET.fromstring at source line 65
(it sits outside the try block); and with a well-formed search body
holding one empty Id element, pmcids is the truthy list of one None and
the comma join at source line 84 dies of an uncaught TypeError.  In
both cases the process does not complete with exit success. -/
theorem c5_counterexample :
    main wMalformedSearch = .error .parseError ∧
    main wNoneId = .error .typeError := by
  refine ⟨rfl, ?_⟩
  simp [main, fetch_pmc_ids, wNoneId, fetch_article_details, fetchBatchesGo,
    chunkList, joinBatch]

/-- C5 amended: for every combination of transport-level stage failures,
provided every delivered response body is well-formed and every search
Id element carries text (the upstream contract), the run completes
without an uncaught exception; a malformed body instead raises an
uncaught parse error, and an empty Id element an uncaught type error at
the comma join. -/
theorem c5_amended (w : World) (hs : w.search ≠ .malformed)
    (hid : ∀ ids, w.search = .body ids → none ∉ ids)
    (he : ∀ batch, w.efetch batch ≠ .malformed) :
    exceptOk (main w) = true := by
  cases hw : w.search with
  | transportErr => simp [main, fetch_pmc_ids, hw, exceptOk]
  | malformed => exact absurd hw hs
  | body ids =>
    obtain ⟨strs, hstrs⟩ := eq_map_some_of_not_none ids (hid ids hw)
    subst hstrs
    by_cases hids : (strs.map some).isEmpty
    · simp [main, fetch_pmc_ids, hw, hids, exceptOk]
    · have hok := fetchBatchesGo_ok w (chunkList strs 5) (fun batch _ => he batch)
      rw [← chunkList_map some strs 5] at hok
      simp [main, fetch_pmc_ids, hw, hids, fetch_article_details, hok, exceptOk]

/-- Concrete world for the C5 witness: transport failures everywhere
downstream, all bodies well-formed, all ids present. -/
def wAllOk : World := ⟨.body [some "1"], fun _ => .transportErr, fun _ => none⟩

/-- Witness for the amended C5. -/
theorem c5_amended_witness : exceptOk (main wAllOk) = true :=
  c5_amended wAllOk (by decide)
    (by
      intro ids h
      simp only [wAllOk, FetchResult.body.injEq] at h
      subst h
      decide)
    (fun batch => by simp [wAllOk])

/-- C6: when the single search request fails with a transport error, the
identifier search returns the empty list, the run completes with zero
records and no output file, and the outcome is the same whatever the
batch-metadata endpoint would answer, so that endpoint is never
consulted. -/
theorem c6_search_failure (w : World) (h : w.search = .transportErr) :
    fetch_pmc_ids w = .ok [] ∧
    main w = .ok ⟨[], [], false⟩ ∧
    ∀ ef : List String → FetchResult (List Article),
      main ⟨w.search, ef, w.page⟩ = main w := by
  have h1 : fetch_pmc_ids w = .ok [] := by simp [fetch_pmc_ids, h]
  have h2 : main w = .ok ⟨[], [], false⟩ := by simp [main, h1]
  refine ⟨h1, h2, ?_⟩
  intro ef
  have h1b : fetch_pmc_ids ⟨w.search, ef, w.page⟩ = .ok [] := by
    simp [fetch_pmc_ids, h]
  rw [h2]
  simp [main, h1b]

/-- Concrete world for the C6 witness. -/
def wSearchDown : World := ⟨.transportErr, fun _ => .body [], fun _ => none⟩

/-- Witness for C6. -/
theorem c6_search_failure_witness : main wSearchDown = .ok ⟨[], [], false⟩ :=
  (c6_search_failure wSearchDown rfl).2.1

/-- C7: when no batch response body is malformed, the whole stage
returns, batch by batch in order, exactly the records each batch
contributes from its own response, so a batch that fails with a
transport error contributes nothing (its articles never appear) while
every other batch's contribution is exactly what it would be on its
own. -/
theorem c7_batch_isolation (w : World) (ids : List String) (b : Nat)
    (h : ∀ batch ∈ chunkList ids b, w.efetch batch ≠ .malformed) :
    fetch_article_details w (ids.map some) b
        = .ok (((chunkList ids b).map (batchRecords w)).flatten) ∧
    ∀ batch ∈ chunkList ids b, w.efetch batch = .transportErr →
      batchRecords w batch = [] := by
  constructor
  · have hok := fetchBatchesGo_ok w (chunkList ids b) h
    rw [← chunkList_map some ids b] at hok
    exact hok
  · intro batch _ hw
    simp [batchRecords, hw]

/-- Concrete world for the C7 witness: the first of two batches fails
with a transport error, the second delivers an empty document. -/
def wC7 : World :=
  ⟨.body [some "1", some "2", some "3"],
    fun batch => if batch = ["1", "2"] then .transportErr else .body [],
    fun _ => none⟩

/-- Witness for C7. -/
theorem c7_batch_isolation_witness :
    fetch_article_details wC7 (["1", "2", "3"].map some) 2
      = .ok (((chunkList ["1", "2", "3"] 2).map (batchRecords wC7)).flatten) :=
  (c7_batch_isolation wC7 ["1", "2", "3"] 2
    (by
      intro batch hb
      simp [chunkList] at hb
      rcases hb with h | h <;> subst h <;> decide)).1

/-! Lemmas about image-link collection and normalization. -/

/-- A substring of a list is a substring of any extension on the left. -/
theorem listContains_append (xs : List Char) (hay needle : List Char)
    (h : listContains hay needle = true) :
    listContains (xs ++ hay) needle = true := by
  induction xs with
  | nil => simpa using h
  | cons c cs ih => simp [listContains, ih]

/-- Substring containment survives prepending to the haystack string. -/
theorem strContains_append_left (s t needle : String)
    (h : strContains t needle = true) :
    strContains (s ++ t) needle = true := by
  simp only [strContains, String.data_append]
  exact listContains_append s.data t.data needle.data h

/-- A tag with a qualifying src contributes its normalized src to the
collected links. -/
theorem mem_cdnLinksFrom (imgs : List ImgTag) (tag : ImgTag) (s : String)
    (h1 : tag ∈ imgs) (h2 : tag.src = some s)
    (h3 : strContains s "cdn.ncbi.nlm.nih.gov" = true) :
    normalizeSrc s ∈ cdnLinksFrom imgs := by
  induction imgs with
  | nil => simp at h1
  | cons t rest ih =>
    rcases List.mem_cons.mp h1 with h | h
    · subst h
      simp [cdnLinksFrom, h2, h3]
    · cases ht : t.src with
      | none => simpa [cdnLinksFrom, ht] using ih h
      | some s2 =>
        by_cases hc : strContains s2 "cdn.ncbi.nlm.nih.gov" = true
        · simp only [cdnLinksFrom, ht, hc, if_true]
          exact List.mem_cons_of_mem _ (ih h)
        · simp only [cdnLinksFrom, ht]
          rw [if_neg hc]
          exact ih h

/-- Every collected link is the normalized src of some img tag whose src
mentions the cdn host. -/
theorem cdnLinksFrom_sound (imgs : List ImgTag) :
    ∀ u ∈ cdnLinksFrom imgs, ∃ tag ∈ imgs, ∃ s : String,
      tag.src = some s ∧ strContains s "cdn.ncbi.nlm.nih.gov" = true ∧
      u = normalizeSrc s := by
  induction imgs with
  | nil => simp [cdnLinksFrom]
  | cons t rest ih =>
    intro u hu
    cases ht : t.src with
    | none =>
      simp only [cdnLinksFrom, ht] at hu
      obtain ⟨tag, htag, s, hs⟩ := ih u hu
      exact ⟨tag, List.mem_cons_of_mem t htag, s, hs⟩
    | some s2 =>
      by_cases hc : strContains s2 "cdn.ncbi.nlm.nih.gov" = true
      · simp only [cdnLinksFrom, ht, hc, if_true] at hu
        rcases List.mem_cons.mp hu with h | h
        · exact ⟨t, List.mem_cons_self t rest, s2, ht, hc, h⟩
        · obtain ⟨tag, htag, s, hs⟩ := ih u h
          exact ⟨tag, List.mem_cons_of_mem t htag, s, hs⟩
      · simp only [cdnLinksFrom, ht] at hu
        rw [if_neg hc] at hu
        obtain ⟨tag, htag, s, hs⟩ := ih u hu
        exact ⟨tag, List.mem_cons_of_mem t htag, s, hs⟩

/-- C8: a protocol-relative img src mentioning the cdn host appears in
the collected link list with the https scheme prepended; every collected
link mentions the cdn host; and the concrete protocol-relative cdn link
of the spec normalizes exactly as stated. -/
theorem c8_normalization (imgs : List ImgTag) (tag : ImgTag) (s : String)
    (h1 : tag ∈ imgs) (h2 : tag.src = some s)
    (h3 : strStartsWith s "//" = true)
    (h4 : strContains s "cdn.ncbi.nlm.nih.gov" = true) :
    ("https:" ++ s) ∈ fetch_cdn_links (some imgs) ∧
    (∀ u ∈ fetch_cdn_links (some imgs),
      strContains u "cdn.ncbi.nlm.nih.gov" = true) ∧
    fetch_cdn_links (some [⟨some "//cdn.ncbi.nlm.nih.gov/x.jpg"⟩])
      = ["https://cdn.ncbi.nlm.nih.gov/x.jpg"] := by
  refine ⟨?_, ?_, by decide⟩
  · have hm := mem_cdnLinksFrom imgs tag s h1 h2 h4
    simp only [normalizeSrc, h3, if_true] at hm
    simpa [fetch_cdn_links] using hm
  · intro u hu
    obtain ⟨tag2, _, s2, _, hc2, hu2⟩ :=
      cdnLinksFrom_sound imgs u (by simpa [fetch_cdn_links] using hu)
    subst hu2
    simp only [normalizeSrc]
    by_cases hss : strStartsWith s2 "//" = true
    · rw [if_pos hss]
      exact strContains_append_left "https:" s2 _ hc2
    · rw [if_neg hss]
      exact hc2

/-- Witness for C8: the spec's concrete protocol-relative link. -/
theorem c8_normalization_witness :
    ("https:" ++ "//cdn.ncbi.nlm.nih.gov/x.jpg")
      ∈ fetch_cdn_links (some [⟨some "//cdn.ncbi.nlm.nih.gov/x.jpg"⟩]) :=
  (c8_normalization [⟨some "//cdn.ncbi.nlm.nih.gov/x.jpg"⟩]
    ⟨some "//cdn.ncbi.nlm.nih.gov/x.jpg"⟩ "//cdn.ncbi.nlm.nih.gov/x.jpg"
    (by simp) rfl (by decide) (by decide)).1

end PubMedIC
